import Mathlib

/-!
Shallow embedding of the heuristic action-item extractor
(`week2/app/services/extract.py`) and of the action-item store's
mark-done operation (`week2/app/db.py`), with theorems settling the
specification's claims about them.

Strings are modelled as `List Char`.  Python's Unicode-aware library
helpers (`str.strip`, `str.splitlines`, `re`'s `\s`) are embedded with
their documented character sets; `str.lower` is embedded as per-character
ASCII lowercasing (every input appearing in the claims is ASCII, and no
theorem below depends on the case mapping outside ASCII).
-/

namespace Extract

/-- The set of characters Python treats as whitespace (`str.isspace`,
`str.strip`, and `\s` in a Unicode regex). -/
def pySpace (c : Char) : Bool :=
  c ∈ ['\t', '\n', '\x0b', '\x0c', '\r', '\x1c', '\x1d', '\x1e', '\x1f',
       ' ', '\x85', '\xa0', ' ', ' ', ' ', ' ',
       ' ', ' ', ' ', ' ', ' ', ' ',
       ' ', ' ', ' ', ' ', ' ', ' ', '　']

/-- Python `str.strip()`: drop leading and trailing whitespace. -/
def pyStrip (s : List Char) : List Char :=
  ((s.dropWhile pySpace).reverse.dropWhile pySpace).reverse

/-- Python `str.lower()`, restricted to the ASCII case mapping. -/
def pyLower (s : List Char) : List Char :=
  s.map Char.toLower

/-- The line-boundary characters of Python `str.splitlines()`
(`"\r\n"` counts as a single boundary and is handled by the splitter). -/
def lineBreakChar (c : Char) : Bool :=
  c ∈ ['\n', '\r', '\x0b', '\x0c', '\x1c', '\x1d', '\x1e', '\x85',
       ' ', ' ']

/-- Worker for `splitlines`: `acc` holds the current line reversed. -/
def splitlinesAux : List Char → List Char → List (List Char)
  | [], acc => if acc.isEmpty then [] else [acc.reverse]
  | '\r' :: '\n' :: rest, acc => acc.reverse :: splitlinesAux rest []
  | c :: rest, acc =>
      if lineBreakChar c then acc.reverse :: splitlinesAux rest []
      else splitlinesAux rest (c :: acc)

/-- Python `str.splitlines()`. -/
def splitlines (s : List Char) : List (List Char) :=
  splitlinesAux s []

def isBulletChar (c : Char) : Bool :=
  c = '-' || c = '*' || c = '•'

def isAsciiDigit (c : Char) : Bool :=
  '0' ≤ c && c ≤ '9'

/-- The regex `BULLET_PREFIX_PATTERN = ^\s*([-*•]|\d+\.)\s+`, as a matcher
anchored at the start of the string: returns the suffix left after the
matched prefix, or `none` when the pattern does not match.  (Greedy
`\s*`/`\d+`/`\s+` need no backtracking here because whitespace is never a
bullet or digit and a digit is never `'.'`.) -/
def bulletMatchSuffix (s : List Char) : Option (List Char) :=
  match s.dropWhile pySpace with
  | [] => none
  | c :: rest =>
    if isBulletChar c then
      match rest with
      | [] => none
      | d :: _ => if pySpace d then some (rest.dropWhile pySpace) else none
    else if isAsciiDigit c then
      match rest.dropWhile isAsciiDigit with
      | '.' :: r =>
        match r with
        | [] => none
        | e :: _ => if pySpace e then some (r.dropWhile pySpace) else none
      | _ => none
    else none

/-- `BULLET_PREFIX_PATTERN.sub("", line)`: since the pattern is anchored
with `^` (no MULTILINE), at most the leading occurrence is removed. -/
def bulletSub (s : List Char) : List Char :=
  match bulletMatchSuffix s with
  | some r => r
  | none => s

/-- `KEYWORD_PREFIXES = ("todo:", "action:", "next:")`. -/
def keywordPrefixes : List (List Char) :=
  [('t' :: "odo:".data), ('a' :: "ction:".data), ('n' :: "ext:".data)]

/-- Substring test, Python's `needle in haystack`. -/
def isSubstring (needle : List Char) : List Char → Bool
  | [] => needle.isEmpty
  | c :: rest => needle.isPrefixOf (c :: rest) || isSubstring needle rest

/-- `_is_action_line(line)` from `extract.py`. -/
def is_action_line (line : List Char) : Bool :=
  let stripped := pyLower (pyStrip line)
  if stripped.isEmpty then false
  else if (bulletMatchSuffix stripped).isSome then true
  else if keywordPrefixes.any (fun p => p.isPrefixOf stripped) then true
  else if isSubstring ('[' :: ' ' :: [']']) stripped
          || isSubstring ('[' :: 't' :: 'o' :: 'd' :: 'o' :: [']']) stripped then true
  else false

/-- Python `str.removeprefix(p)`. -/
def removePre (p s : List Char) : List Char :=
  if p.isPrefixOf s then s.drop p.length else s

/-- The per-line cleanup applied to a classified action line: bullet
substitution, then strip, then `removeprefix("[ ]")`, strip,
`removeprefix("[todo]")`, strip — in exactly that order. -/
def clean_action_line (line : List Char) : List Char :=
  let cleaned := pyStrip (bulletSub line)
  let cleaned := pyStrip (removePre ('[' :: ' ' :: [']']) cleaned)
  pyStrip (removePre ('[' :: 't' :: 'o' :: 'd' :: 'o' :: [']']) cleaned)

/-- The line-based tier of `extract_action_items`: the items appended by
the first loop, before any fallback or deduplication. -/
def tier_items (text : List Char) : List (List Char) :=
  (splitlines text).filterMap (fun raw_line =>
    let line := pyStrip raw_line
    if line.isEmpty then none
    else if is_action_line line then some (clean_action_line line)
    else none)

def isSentencePunct (c : Char) : Bool :=
  c = '.' || c = '!' || c = '?'

/-- Worker for `re.split(r"(?<=[.!?])\s+", text)`.  `skipping` is true
while consuming a (greedy) whitespace run that started a split; `prevPunct`
records whether the previous character satisfied the lookbehind. -/
def sentSplitAux : List Char → Bool → Bool → List Char → List (List Char)
  | [], skipping, _, acc => if skipping then [[]] else [acc.reverse]
  | c :: rest, skipping, prevPunct, acc =>
    if skipping then
      if pySpace c then sentSplitAux rest true prevPunct acc
      else sentSplitAux rest false (isSentencePunct c) [c]
    else if pySpace c && prevPunct then
      acc.reverse :: sentSplitAux rest true false []
    else sentSplitAux rest false (isSentencePunct c) (c :: acc)

/-- `re.split(r"(?<=[.!?])\s+", s)`: split on whitespace runs preceded by
sentence-ending punctuation. -/
def sentSplit (s : List Char) : List (List Char) :=
  sentSplitAux s false false []

def isWordChar (c : Char) : Bool :=
  ('A' ≤ c && c ≤ 'Z') || ('a' ≤ c && c ≤ 'z') || c = '\''

/-- The first token of `re.findall(r"[A-Za-z']+", s)`: the first maximal
run of letters/apostrophes (empty when there is none). -/
def firstWord (s : List Char) : List Char :=
  (s.dropWhile (fun c => !isWordChar c)).takeWhile isWordChar

/-- The `imperative_starters` set from `_looks_imperative`. -/
def imperativeStarters : List (List Char) :=
  [('a' :: "dd".data), ('c' :: "reate".data), ('i' :: "mplement".data),
   ('f' :: "ix".data), ('u' :: "pdate".data), ('w' :: "rite".data),
   ('c' :: "heck".data), ('v' :: "erify".data), ('r' :: "efactor".data),
   ('d' :: "ocument".data), ('d' :: "esign".data),
   ('i' :: "nvestigate".data)]

/-- `_looks_imperative(sentence)` from `extract.py`. -/
def looks_imperative (sentence : List Char) : Bool :=
  let w := firstWord sentence
  if w.isEmpty then false
  else imperativeStarters.contains (pyLower w)

/-- The fallback tier of `extract_action_items`: sentence split of the
stripped input, keeping non-blank imperative-looking sentences. -/
def fallback_items (text : List Char) : List (List Char) :=
  (sentSplit (pyStrip text)).filterMap (fun sentence =>
    let s := pyStrip sentence
    if s.isEmpty then none
    else if looks_imperative s then some s
    else none)

/-- The final dedup loop: `seen` holds the lower-cased forms already kept. -/
def dedupAux (seen : List (List Char)) : List (List Char) → List (List Char)
  | [] => []
  | item :: rest =>
    let lowered := pyLower item
    if seen.contains lowered then dedupAux seen rest
    else item :: dedupAux (lowered :: seen) rest

/-- `extract_action_items(text)` from `extract.py`. -/
def extract_action_items (text : List Char) : List (List Char) :=
  let extracted := tier_items text
  let extracted := if extracted.isEmpty then fallback_items text else extracted
  dedupAux [] extracted

end Extract

namespace Db

/-- A row of the `action_items` table (`week2/app/db.py`): `done` is the
stored integer (`1 if done else 0`). -/
structure ActionItem where
  id : Nat
  note_id : Option Nat
  text : List Char
  done : Nat
  created_at : List Char
deriving DecidableEq

/-- The exceptions that can escape the modelled store operations:
`ActionItemNotFoundError` and its base class `DatabaseError`
(`week2/app/exceptions.py`); a `databaseError` value carries `str(e)`. -/
inductive DbExc where
  | actionItemNotFoundError (action_item_id : Nat)
  | databaseError (msg : List Char)
deriving DecidableEq

/-- `str(e)` for the modelled exceptions: `ActionItemNotFoundError.__init__`
formats the id into "Action item ... not found". -/
def excMessage : DbExc → List Char
  | .actionItemNotFoundError i =>
      ("Action item ").data ++ (toString i).data ++ (" not found").data
  | .databaseError m => m

/-- The `get_connection()` context manager (`db.py` lines 16–44) run around
a body: on success the transaction commits; when the body raises, the
generator's `except Exception as e` branch rolls the transaction back
(restoring the caller-visible store) and raises
`DatabaseError` with message "Unexpected database error: " followed by the original message.  (The
`except sqlite3.Error` branch is unreachable in this model because the
modelled store operations never fail at the SQLite level.) -/
def get_connection_run (store : List ActionItem)
    (body : List ActionItem → List ActionItem × Option DbExc) :
    List ActionItem × Option DbExc :=
  match body store with
  | (s, none) => (s, none)
  | (_, some e) =>
      (store,
       some (.databaseError (("Unexpected database error: ").data ++ excMessage e)))

/-- `mark_action_item_done(action_item_id, done)` (`db.py` lines 267–293).
The body runs `UPDATE action_items SET done = ? WHERE id = ?` and raises
`ActionItemNotFoundError` when `cursor.rowcount == 0`; the surrounding
`with get_connection()` block wraps that exception as in
`get_connection_run`.  The function's own `except ActionItemNotFoundError:
raise` and `except sqlite3.Error` handlers pass the arriving
`DatabaseError` through unchanged, so they are the identity here. -/
def mark_action_item_done (store : List ActionItem) (action_item_id : Nat)
    (done : Bool) : List ActionItem × Option DbExc :=
  get_connection_run store (fun s =>
    let updated := s.map (fun r =>
      if r.id = action_item_id then
        { r with done := if done then 1 else 0 }
      else r)
    let rowcount := (s.filter (fun r => r.id = action_item_id)).length
    if rowcount = 0 then (updated, some (.actionItemNotFoundError action_item_id))
    else (updated, none))

end Db

/-- The pre-deduplication extracted list of `extract_action_items`: the
line-based tier when it is non-empty, else the sentence fallback. -/
def Extract.pre_dedup_items (text : List Char) : List (List Char) :=
  let extracted := Extract.tier_items text
  if extracted.isEmpty then Extract.fallback_items text else extracted


namespace Extract

theorem dedupAux_cons (seen : List (List Char)) (h : List Char)
    (t : List (List Char)) :
    dedupAux seen (h :: t) =
      if seen.contains (pyLower h) then dedupAux seen t
      else h :: dedupAux (pyLower h :: seen) t := rfl

theorem contains_iff_mem (seen : List (List Char)) (z : List Char) :
    seen.contains z = true ↔ z ∈ seen := by
  simp [List.elem_iff]

theorem dedupAux_sublist (l : List (List Char)) :
    ∀ seen, List.Sublist (dedupAux seen l) l := by
  induction l with
  | nil => intro seen; simp [dedupAux]
  | cons h t ih =>
    intro seen
    rw [dedupAux_cons]
    by_cases hc : seen.contains (pyLower h) = true
    · rw [if_pos hc]
      exact List.Sublist.cons _ (ih seen)
    · rw [if_neg hc]
      exact List.Sublist.cons₂ _ (ih _)

theorem dedupAux_mem_first (l : List (List Char)) :
    ∀ (seen : List (List Char)) (x : List Char), x ∈ dedupAux seen l →
      pyLower x ∉ seen ∧
      l.find? (fun y => pyLower y == pyLower x) = some x := by
  induction l with
  | nil => intro seen x hx; simp [dedupAux] at hx
  | cons h t ih =>
    intro seen x hx
    rw [dedupAux_cons] at hx
    by_cases hc : seen.contains (pyLower h) = true
    · rw [if_pos hc] at hx
      obtain ⟨h1, h2⟩ := ih seen x hx
      refine ⟨h1, ?_⟩
      have hne : ¬((pyLower h == pyLower x) = true) := by
        simp only [beq_iff_eq]
        intro he
        exact h1 (he ▸ (contains_iff_mem _ _).mp hc)
      have hstep : List.find? (fun y => pyLower y == pyLower x) (h :: t) =
          List.find? (fun y => pyLower y == pyLower x) t :=
        List.find?_cons_of_neg t hne
      exact hstep.trans h2
    · rw [if_neg hc] at hx
      rcases List.mem_cons.mp hx with rfl | hx'
      · refine ⟨fun hm => hc ((contains_iff_mem _ _).mpr hm), ?_⟩
        exact List.find?_cons_of_pos _ (by simp)
      · obtain ⟨h1, h2⟩ := ih _ x hx'
        refine ⟨fun hm => h1 (List.mem_cons_of_mem _ hm), ?_⟩
        have hne : ¬((pyLower h == pyLower x) = true) := by
          simp only [beq_iff_eq]
          intro he
          exact h1 (by rw [← he]; exact List.mem_cons_self _ _)
        have hstep : List.find? (fun y => pyLower y == pyLower x) (h :: t) =
            List.find? (fun y => pyLower y == pyLower x) t :=
          List.find?_cons_of_neg t hne
        exact hstep.trans h2

theorem dedupAux_pairwise (l : List (List Char)) :
    ∀ seen, (dedupAux seen l).Pairwise (fun a b => pyLower a ≠ pyLower b) := by
  induction l with
  | nil => intro seen; simp [dedupAux]
  | cons h t ih =>
    intro seen
    rw [dedupAux_cons]
    by_cases hc : seen.contains (pyLower h) = true
    · rw [if_pos hc]; exact ih seen
    · rw [if_neg hc]
      refine List.Pairwise.cons ?_ (ih _)
      intro b hb he
      have h1 := (dedupAux_mem_first t _ b hb).1
      exact h1 (by rw [← he]; exact List.mem_cons_self _ _)

theorem dedupAux_cover (l : List (List Char)) :
    ∀ seen y, y ∈ l → pyLower y ∉ seen →
      ∃ x, x ∈ dedupAux seen l ∧ pyLower x = pyLower y := by
  induction l with
  | nil => intro seen y hy _; exact absurd hy (List.not_mem_nil _)
  | cons h t ih =>
    intro seen y hy hns
    rw [dedupAux_cons]
    by_cases hc : seen.contains (pyLower h) = true
    · rw [if_pos hc]
      rcases List.mem_cons.mp hy with rfl | hy'
      · exact absurd ((contains_iff_mem _ _).mp hc) hns
      · exact ih seen y hy' hns
    · rw [if_neg hc]
      rcases List.mem_cons.mp hy with rfl | hy'
      · exact ⟨_, List.mem_cons_self _ _, rfl⟩
      · by_cases heq : pyLower h = pyLower y
        · exact ⟨h, List.mem_cons_self _ _, heq⟩
        · obtain ⟨x, hx1, hx2⟩ := ih (pyLower h :: seen) y hy' (by
            intro hm
            rcases List.mem_cons.mp hm with he | hm'
            · exact heq he.symm
            · exact hns hm')
          exact ⟨x, List.mem_cons_of_mem _ hx1, hx2⟩

theorem pyStrip_eq_nil (s : List Char) (h : ∀ c ∈ s, pySpace c = true) :
    pyStrip s = [] := by
  simp only [pyStrip]
  rw [List.dropWhile_eq_nil_iff.mpr h]
  simp

theorem splitlinesAux_mem_chars (l acc : List Char) :
    ∀ line ∈ splitlinesAux l acc, ∀ c ∈ line, c ∈ l ∨ c ∈ acc := by
  induction l, acc using splitlinesAux.induct with
  | case1 acc hem =>
    intro line hline c hc
    rw [splitlinesAux.eq_1, if_pos hem] at hline
    exact absurd hline (List.not_mem_nil _)
  | case2 acc hem =>
    intro line hline c hc
    rw [splitlinesAux.eq_1, if_neg hem] at hline
    rcases List.mem_cons.mp hline with rfl | h0
    · exact Or.inr (List.mem_reverse.mp hc)
    · exact absurd h0 (List.not_mem_nil _)
  | case3 rest acc ih =>
    intro line hline c hc
    rw [splitlinesAux.eq_2] at hline
    rcases List.mem_cons.mp hline with rfl | h0
    · exact Or.inr (List.mem_reverse.mp hc)
    · rcases ih line h0 c hc with h1 | h1
      · exact Or.inl (List.mem_cons_of_mem _ (List.mem_cons_of_mem _ h1))
      · exact absurd h1 (List.not_mem_nil _)
  | case4 d rest acc hne hbr ih =>
    intro line hline c hc
    rw [splitlinesAux.eq_3 acc d rest hne, if_pos hbr] at hline
    rcases List.mem_cons.mp hline with rfl | h0
    · exact Or.inr (List.mem_reverse.mp hc)
    · rcases ih line h0 c hc with h1 | h1
      · exact Or.inl (List.mem_cons_of_mem _ h1)
      · exact absurd h1 (List.not_mem_nil _)
  | case5 d rest acc hne hbr ih =>
    intro line hline c hc
    rw [splitlinesAux.eq_3 acc d rest hne, if_neg hbr] at hline
    rcases ih line hline c hc with h1 | h1
    · exact Or.inl (List.mem_cons_of_mem _ h1)
    · rcases List.mem_cons.mp h1 with rfl | h2
      · exact Or.inl (List.mem_cons_self _ _)
      · exact Or.inr h2

theorem tier_items_of_all_space (text : List Char)
    (h : ∀ c ∈ text, pySpace c = true) : tier_items text = [] := by
  simp only [tier_items]
  rw [List.filterMap_eq_nil_iff]
  intro raw hraw
  have hall : ∀ c ∈ raw, pySpace c = true := by
    intro c hc
    rcases splitlinesAux_mem_chars text [] raw hraw c hc with h1 | h1
    · exact h c h1
    · exact absurd h1 (List.not_mem_nil _)
  have hstrip : pyStrip raw = [] := pyStrip_eq_nil raw hall
  simp [hstrip]

theorem fallback_items_of_all_space (text : List Char)
    (h : ∀ c ∈ text, pySpace c = true) : fallback_items text = [] := by
  have hstrip : pyStrip text = [] := pyStrip_eq_nil text h
  simp only [fallback_items]
  rw [hstrip]
  rfl

/-- C1, counterexample: on the spec's keyword-prefix scenario the code does
not return the items with their `todo:`/`action:`/`next:` prefixes
stripped — the cleanup loop only removes bullet/numbering prefixes and the
`"[ ]"`/`"[todo]"` checkbox tokens, never keyword prefixes. -/
theorem keyword_prefix_stripping_cex :
    extract_action_items
        (("TODO: Fix the bug\naction: Update auth\nnext: Test feature\ntodo: Review PRs").data) ≠
      [("Fix the bug").data, ("Update auth").data,
       ("Test feature").data, ("Review PRs").data] := by
  decide

/-- C1, amended: for the keyword-prefix input the extractor classifies all
four lines (keyword prefixes match case-insensitively) but returns each
trimmed line verbatim, with its leading keyword prefix still attached. -/
theorem keyword_lines_kept_verbatim :
    extract_action_items
        (("TODO: Fix the bug\naction: Update auth\nnext: Test feature\ntodo: Review PRs").data) =
      [("TODO: Fix the bug").data, ("action: Update auth").data,
       ("next: Test feature").data, ("todo: Review PRs").data] := by
  decide

/-- C2: stripping is bullet prefix first, then `"[ ]"`, then `"[todo]"`.
For `"[ ] - task"` the checkbox token is removed but the dash that then
becomes leading survives, giving `"- task"`; for `"- [ ] task"` the bullet
is removed first, exposing the checkbox token, which is then also removed,
giving `"task"`. -/
theorem strip_order_checkbox_after_bullet :
    extract_action_items (("[ ] - task").data) = [("- task").data] ∧
    extract_action_items (("- [ ] task").data) = [("task").data] := by
  decide

/-- C3: the output of `extract_action_items` is deduplicated
case-insensitively — no two output items share a lower-cased form, the
output is a sublist of the pre-deduplication extracted list (so relative
order is preserved), every output item is the first occurrence of its
lower-cased class in that list, and every extracted item's class is
represented in the output. -/
theorem output_dedup_first_occurrence (text : List Char) :
    (extract_action_items text).Pairwise (fun a b => pyLower a ≠ pyLower b) ∧
    List.Sublist (extract_action_items text) (pre_dedup_items text) ∧
    (∀ x ∈ extract_action_items text,
      (pre_dedup_items text).find? (fun y => pyLower y == pyLower x) = some x) ∧
    (∀ y ∈ pre_dedup_items text,
      ∃ x, x ∈ extract_action_items text ∧ pyLower x = pyLower y) := by
  have hdef : extract_action_items text = dedupAux [] (pre_dedup_items text) := rfl
  refine ⟨?_, ?_, ?_, ?_⟩
  · rw [hdef]; exact dedupAux_pairwise _ []
  · rw [hdef]; exact dedupAux_sublist _ []
  · intro x hx
    rw [hdef] at hx
    exact (dedupAux_mem_first _ [] x hx).2
  · intro y hy
    rw [hdef]
    exact dedupAux_cover _ [] y hy (List.not_mem_nil _)

/-- C4: the sentence-level imperative fallback contributes the
pre-deduplication items exactly when the line-based tier produced zero
items for the whole input; otherwise the output is the deduplication of
the line-based tier alone. -/
theorem fallback_iff_tier_yields_nothing (text : List Char) :
    (tier_items text = [] →
      extract_action_items text = dedupAux [] (fallback_items text)) ∧
    (tier_items text ≠ [] →
      extract_action_items text = dedupAux [] (tier_items text)) := by
  have hdef : extract_action_items text =
      dedupAux [] (if (tier_items text).isEmpty then fallback_items text
                   else tier_items text) := rfl
  constructor
  · intro h
    rw [hdef, h]
    simp
  · intro h
    rw [hdef, if_neg (fun hh => h (List.isEmpty_iff.mp hh))]

/-- C5: on the all-narrative input no line classifies, so the fallback
splits sentences and keeps exactly the ones whose first word is in the
imperative-starter set (`"Implement"`, `"Create"`; not `"This"`). -/
theorem imperative_fallback_example :
    tier_items
        (("Implement the new feature by next week.\nThis is just a regular sentence.\nCreate a user dashboard.").data) = [] ∧
    extract_action_items
        (("Implement the new feature by next week.\nThis is just a regular sentence.\nCreate a user dashboard.").data) =
      [("Implement the new feature by next week.").data,
       ("Create a user dashboard.").data] := by
  decide

/-- C6: on any input made only of whitespace characters (the empty string
included) the extractor returns the empty list: every line strips to
blank, and the fallback's sentence split of the stripped (empty) input
yields no non-blank sentence. -/
theorem whitespace_only_input_yields_nil (text : List Char)
    (h : text.all pySpace = true) : extract_action_items text = [] := by
  have h' : ∀ c ∈ text, pySpace c = true := fun c hc => List.all_eq_true.mp h c hc
  have h1 := tier_items_of_all_space text h'
  have h2 := fallback_items_of_all_space text h'
  have hdef : extract_action_items text =
      dedupAux [] (if (tier_items text).isEmpty then fallback_items text
                   else tier_items text) := rfl
  rw [hdef, h1, h2]
  rfl

/-- C6, witness: the whitespace-only theorem applied to a concrete
whitespace-only string. -/
theorem whitespace_only_input_yields_nil_witness :
    extract_action_items ((" \t\n  \r ").data) = [] :=
  whitespace_only_input_yields_nil _ (by decide)

/-- C8: extraction is deterministic — it is a pure function of its input
text (the embedding consults no other state), so equal inputs always
produce equal outputs. -/
theorem extraction_deterministic (t₁ t₂ : List Char) (h : t₁ = t₂) :
    extract_action_items t₁ = extract_action_items t₂ := by
  rw [h]

/-- C8, witness: determinism applied at a concrete input. -/
theorem extraction_deterministic_witness :
    extract_action_items (("- do it").data) =
      extract_action_items (("- do it").data) :=
  extraction_deterministic _ _ rfl

/-- C9: `"[TODO] Fix the login bug"` classifies as an action line (the
lower-cased line contains `"[todo]"`) but `removeprefix("[todo]")` is
case-sensitive and removes nothing from the original-case line, so the
item is returned with the marker still attached. -/
theorem checkbox_classify_insensitive_strip_sensitive :
    is_action_line (("[TODO] Fix the login bug").data) = true ∧
    extract_action_items (("[TODO] Fix the login bug").data) =
      [("[TODO] Fix the login bug").data] := by
  decide

/-- C10: the single line `"- [ ]"` classifies as an action line, and after
bullet and checkbox stripping the appended item is the empty string, which
is not filtered out: the output is `[""]`, not `[]`. -/
theorem blank_checkbox_yields_empty_item :
    is_action_line (("- [ ]").data) = true ∧
    extract_action_items (("- [ ]").data) = [[]] ∧
    extract_action_items (("- [ ]").data) ≠ [] := by
  decide

end Extract

namespace Db

/-- C7: `mark_action_item_done` on an absent id does not fail with the
NotFound condition: the `ActionItemNotFoundError` raised inside the
`with get_connection()` block is swallowed by the context manager's
generic `except Exception` handler and re-raised as a plain
`DatabaseError("Unexpected database error: ...")`, which the function's
own `except ActionItemNotFoundError: raise` no longer matches — the
store is left unmodified (rollback).  On a present id the done flag is
stored as `1`/`0` and no error is raised, as the claim states. -/
theorem mark_done_missing_id_not_notfound :
    mark_action_item_done [] 1 true =
      ([], some (DbExc.databaseError
        (("Unexpected database error: Action item 1 not found").data))) ∧
    mark_action_item_done [⟨2, none, ('x' :: []), 1, []⟩] 1 false =
      ([⟨2, none, ('x' :: []), 1, []⟩],
       some (DbExc.databaseError
        (("Unexpected database error: Action item 1 not found").data))) ∧
    mark_action_item_done [⟨1, none, ('x' :: []), 0, []⟩] 1 true =
      ([⟨1, none, ('x' :: []), 1, []⟩], none) ∧
    mark_action_item_done [⟨1, none, ('x' :: []), 1, []⟩] 1 false =
      ([⟨1, none, ('x' :: []), 0, []⟩], none) := by
  decide

end Db
